import Mathlib

/-!
Verification of the install orchestrator in `core/downloader.py` of the
Histolauncher repository.  Python string and dictionary operations are
embedded as executable Lean functions over `List Char` and association
lists; the stateful download / progress-store code is embedded with
explicit state passing, and fallible code returns `Option` / `Except`.
-/

set_option maxRecDepth 4096

namespace Histolauncher

/-! ## Python string primitives (shallow embedding over `List Char`) -/

/-- ASCII decimal digit test, as used by Python `str.isdigit` on ASCII input. -/
def isDigitChar (c : Char) : Bool :=
  48 ≤ c.toNat && c.toNat ≤ 57

/-- Whitespace characters stripped by Python `int(...)` / `str.strip()`. -/
def isPySpace (c : Char) : Bool :=
  c = ' ' || c = '\t' || c = '\n' || c = '\r'

/-- Interpret a nonempty all-digit character list as a natural number. -/
def digitsToNat? (cs : List Char) : Option Nat :=
  if cs ≠ [] ∧ cs.all isDigitChar then
    some (cs.foldl (fun a c => a * 10 + (c.toNat - 48)) 0)
  else none

/-- Python `int(s)` on a string: strips whitespace, allows a sign, and
requires a nonempty digit string; returns `none` where Python raises. -/
def pyInt? (s : String) : Option Int :=
  let t := ((s.data.dropWhile isPySpace).reverse.dropWhile isPySpace).reverse
  match t with
  | '-' :: rest => (digitsToNat? rest).map (fun n => -(n : Int))
  | '+' :: rest => (digitsToNat? rest).map (fun n => (n : Int))
  | _ => (digitsToNat? t).map (fun n => (n : Int))

/-- One fuel-bounded pass of Python `str.split(sep)` over character lists
(`sep` nonempty, non-overlapping, left to right). -/
def splitSepGo (sep : List Char) : Nat → List Char → List Char → List (List Char)
  | _, acc, [] => [acc.reverse]
  | 0, acc, s => [acc.reverse ++ s]
  | fuel + 1, acc, c :: cs =>
    if sep.isPrefixOf (c :: cs) ∧ sep ≠ [] then
      acc.reverse :: splitSepGo sep fuel [] ((c :: cs).drop sep.length)
    else
      splitSepGo sep fuel (c :: acc) cs

/-- Python `s.split(sep)` for a nonempty separator. -/
def pySplit (s sep : String) : List String :=
  (splitSepGo sep.data s.data.length [] s.data).map (fun l => ⟨l⟩)

/-- Fuel-bounded Python `str.replace(pat, rep)` over character lists
(`pat` nonempty, non-overlapping, left to right). -/
def replaceGo (pat rep : List Char) : Nat → List Char → List Char
  | _, [] => []
  | 0, s => s
  | fuel + 1, c :: cs =>
    if pat.isPrefixOf (c :: cs) ∧ pat ≠ [] then
      rep ++ replaceGo pat rep fuel ((c :: cs).drop pat.length)
    else
      c :: replaceGo pat rep fuel cs

/-- Python `s.replace(pat, rep)` for a nonempty pattern. -/
def pyReplace (s pat rep : String) : String :=
  ⟨replaceGo pat.data rep.data s.data.length s.data⟩

/-- Python `s.lower()` restricted to ASCII (all inputs in scope are ASCII). -/
def pyLower (s : String) : String :=
  ⟨s.data.map Char.toLower⟩

/-- Python `s.startswith(p)`. -/
def pyStartsWith (s p : String) : Bool :=
  p.data.isPrefixOf s.data

/-- Python `os.path.basename(p)` on forward-slash paths (the artifact
paths in the metadata documents all use forward slashes). -/
def basenameOf (p : String) : String :=
  (pySplit p "/").getLastD ""

/-- Text before the first dash: Python `s.split("-", 1)[0]`. -/
def baseBeforeDash (s : String) : String :=
  (pySplit s "-").headD ""

/-! ## Version rules (`_is_modern_assets`, `_parse_lwjgl_version`,
`_should_skip_library_for_version` in core/downloader.py) -/

/-- The `try` body of `_is_modern_assets` (and `_parse_mc_version`):
split the pre-dash base on dots and parse `(major, minor)` with Python
`int`, `minor` defaulting to 0 when there is a single component.
Returns `none` exactly where the Python code raises. -/
def parseMajorMinor (version_id : String) : Option (Int × Int) :=
  let base := baseBeforeDash version_id
  let parts := pySplit base "."
  match pyInt? (parts.headD "") with
  | none => none
  | some major =>
    if parts.length > 1 then
      match pyInt? (parts.getD 1 "") with
      | none => none
      | some minor => some (major, minor)
    else some (major, 0)

/-- `_is_modern_assets` (core/downloader.py lines 325-337). -/
def is_modern_assets (version_id : String) : Bool :=
  match parseMajorMinor version_id with
  | none => true
  | some (major, minor) =>
    if major > 1 then true
    else if major = 1 ∧ minor ≥ 6 then true
    else false

/-- `_parse_lwjgl_version` (core/downloader.py lines 376-387): lowercase
the file name, require the `lwjgl` prefix and at least one dash, strip
".jar" and dots from the last dash-component, and parse the digits. -/
def parse_lwjgl_version (lib_basename : String) : Option Nat :=
  let name := pyLower lib_basename
  if ¬ pyStartsWith name "lwjgl" then none
  else
    let parts := pySplit name "-"
    if parts.length < 2 then none
    else
      let ver_part := pyReplace (parts.getLastD "") ".jar" ""
      let digits := pyReplace ver_part "." ""
      if digits ≠ "" ∧ digits.data.all isDigitChar then digitsToNat? digits.data
      else none

/-- `lib_basename.split("-")[0]`, the module prefix used for grouping. -/
def moduleOf (lib_basename : String) : String :=
  (pySplit lib_basename "-").headD ""

/-- Python dict read `d.get(k)` over an association list. -/
def lookupAssoc (hv : List (String × Nat)) (k : String) : Option Nat :=
  match hv with
  | [] => none
  | (k', v') :: rest => if k = k' then some v' else lookupAssoc rest k

/-- Python dict assignment `d[k] = v` over an association list. -/
def setAssoc (m : List (String × Nat)) (k : String) (v : Nat) : List (String × Nat) :=
  match m with
  | [] => [(k, v)]
  | (k', v') :: rest => if k' = k then (k, v) :: rest else (k', v') :: setAssoc rest k v

/-- One step of the `highest_versions` accumulation loop in
`_install_version` (core/downloader.py lines 587-598). -/
def insertHighest (hv : List (String × Nat)) (name : String) : List (String × Nat) :=
  match parse_lwjgl_version name with
  | none => hv
  | some ver =>
    let module := moduleOf name
    match lookupAssoc hv module with
    | none => setAssoc hv module ver
    | some cur => if ver > cur then setAssoc hv module ver else hv

/-- The `highest_versions` dictionary built over a list of library file
base names (core/downloader.py lines 586-598). -/
def buildHighest (names : List String) : List (String × Nat) :=
  names.foldl insertHighest []

/-- `_should_skip_library_for_version` (core/downloader.py lines 390-399). -/
def should_skip_library_for_version (version_id lib_basename : String)
    (highest_versions : List (String × Nat)) : Bool :=
  match parse_lwjgl_version lib_basename with
  | none => false
  | some ver =>
    match lookupAssoc highest_versions (moduleOf lib_basename) with
    | none => false
    | some highest => ver < highest

/-! ## Libraries stage: classpath accumulation (core/downloader.py
lines 580-699 and 1044-1052) -/

/-- The `artifact` descriptor of one library entry: the fields the
libraries loop reads (`url`, `path`); entries without an artifact are
not modelled since they contribute nothing to the classpath. -/
structure Artifact where
  url : String
  path : String
deriving DecidableEq

/-- `base_name = os.path.basename(a_path) if a_path else ""` (line 624). -/
def artifactBasename (a : Artifact) : String :=
  if a.path ≠ "" then basenameOf a.path else ""

/-- The highest-version dictionary as `_install_version` builds it from
the artifact paths (lines 586-598, where the basename comes from
`artifact.get("path") or ""`). -/
def buildHighestFromArtifacts (arts : List Artifact) : List (String × Nat) :=
  buildHighest (arts.map (fun a => basenameOf a.path))

/-- The `copied_lib_basenames` list accumulated by the libraries loop:
a skippable entry is recorded as done without transfer; otherwise the
base name is appended when both `url` and `path` are non-empty
(lines 611-688). -/
def copiedBasenames (version_id : String) (arts : List Artifact) : List String :=
  let hv := buildHighestFromArtifacts arts
  arts.foldl
    (fun acc a =>
      let base_name := artifactBasename a
      if should_skip_library_for_version version_id base_name hv then acc
      else if a.url ≠ "" ∧ a.path ≠ "" then acc ++ [base_name]
      else acc)
    []

/-- The seen-set deduplication of lines 1044-1049 (first occurrence of
each name is kept, order preserved). -/
def dedupGo (seen : List String) : List String → List String
  | [] => []
  | x :: xs => if x ∈ seen then dedupGo seen xs else x :: dedupGo (x :: seen) xs

/-- The final classpath written to data.ini: "client.jar" first, then
the deduplicated copied libraries (lines 1044-1051). -/
def classpathEntries (version_id : String) (arts : List Artifact) : List String :=
  "client.jar" :: dedupGo [] (copiedBasenames version_id arts)

/-! ## Claim-side superseded-dependency detector

Formalisation of the spec sentence behind claim C6 ("groups by a module
prefix (text before first dash), extracts an embedded numeric version
from the file name, and marks as skippable any entry whose version is
lower than the highest version seen for its module"): the same version
extraction as the source but with no restriction to lwjgl-prefixed
names.  This definition follows the spec wording, not the source; it is
the refinement target the source is compared against. -/

/-- The claim's version extraction: last dash-component of the
lowercased name with ".jar" and dots removed, parsed as a number. -/
def claimVersionOf (lib_basename : String) : Option Nat :=
  let name := pyLower lib_basename
  let parts := pySplit name "-"
  if parts.length < 2 then none
  else
    let digits := pyReplace (pyReplace (parts.getLastD "") ".jar" "") "." ""
    if digits ≠ "" ∧ digits.data.all isDigitChar then digitsToNat? digits.data
    else none

/-- The claim's skip predicate over a set of file names: skippable
exactly when the entry's extracted version is lower than the highest
extracted version of a same-module entry of the set. -/
def claimSkippable (names : List String) (lib_basename : String) : Bool :=
  match claimVersionOf lib_basename with
  | none => false
  | some v =>
    names.any (fun n =>
      moduleOf n == moduleOf lib_basename &&
        match claimVersionOf n with
        | none => false
        | some w => v < w)

/-! ## Stage weigher (`STAGE_WEIGHTS`, `_compute_overall`,
core/downloader.py lines 36-43 and 246-253) -/

/-- `STAGE_WEIGHTS` in its Python dict insertion order. -/
def STAGE_WEIGHTS : List (String × Nat) :=
  [("version_json", 5), ("client", 20), ("libraries", 25),
   ("natives", 15), ("assets", 25), ("finalize", 10)]

/-- The accumulation loop of `_compute_overall`: full weights of the
stages before the current one, plus the current stage's weight scaled
by `stage_percent / 100` (the `break` is the early return on match). -/
def computeOverallGo : List (String × Nat) → String → ℚ → ℚ → ℚ
  | [], _, _, total => total
  | (key, weight) :: rest, stage, stage_percent, total =>
    if key = stage then total + weight * (stage_percent / 100)
    else computeOverallGo rest stage stage_percent (total + weight)

/-- `_compute_overall` (core/downloader.py lines 246-253). -/
def compute_overall (stage : String) (stage_percent : ℚ) : ℚ :=
  min 100 (max 0 (computeOverallGo STAGE_WEIGHTS stage stage_percent 0))

/-- The pipeline order of stage names (dict iteration order). -/
def stageNames : List String :=
  STAGE_WEIGHTS.map Prod.fst

/-- Position of a stage in the pipeline order. -/
def stageIndex (stage : String) : Nat :=
  stageNames.indexOf stage

/-- Sum of the full weights of the stages strictly before `stage`
(the spec's formula, stated independently of the loop). -/
def prefixWeight (stage : String) : Nat :=
  ((STAGE_WEIGHTS.takeWhile (fun kw => kw.fst ≠ stage)).map Prod.snd).sum

/-- The configured weight of a stage (0 when absent). -/
def weightOf (stage : String) : Nat :=
  ((STAGE_WEIGHTS.find? (fun kw => kw.fst = stage)).map Prod.snd).getD 0

/-! ## Progress store and job status (core/downloader.py lines 58-96,
1114-1115, 1218-1227) -/

/-- One persisted progress record (the JSON object written by
`write_progress`; every writer supplies all seven fields). -/
structure ProgressRecord where
  status : String
  stage : String
  stage_percent : Int
  overall_percent : Int
  message : String
  bytes_done : Int
  bytes_total : Int
deriving DecidableEq

/-- `_version_key` (line 1114): the key is "category/id". -/
def version_key (version_id storage_category : String) : String :=
  storage_category ++ "/" ++ version_id

/-- The progress store: key to record, `none` when no progress file
exists (or it cannot be parsed).  Written records are full seven-field
objects, hence non-empty dicts: Python `not prog` coincides with
absence. -/
def ProgressStore : Type := String → Option ProgressRecord

/-- `get_install_status` (lines 1218-1227): read the record and overlay
"paused" when the pause flag is currently set. -/
def get_install_status (store : ProgressStore) (pauseFlag : String → Bool)
    (version_id storage_category : String) : Option ProgressRecord :=
  let key := version_key version_id storage_category
  match store key with
  | none => none
  | some prog =>
    if pauseFlag key then some { prog with status := "paused" } else some prog

/-- The two filesystem effects `write_progress` performs, each of which
can fail: `os.makedirs` inside `ensure_dirs` (reached through
`progress_path`, before the try block) and the open/`json.dump` write
(inside the try block). -/
structure ProgressFS where
  ensureDirsOk : Bool
  openWriteOk : Bool
deriving DecidableEq

/-- `write_progress` (lines 68-75): `path = progress_path(version_key)`
runs before the try block, so a failure of `ensure_dirs` propagates;
a failure of the open/write is swallowed and the store is unchanged. -/
def write_progress (fs : ProgressFS) (store : ProgressStore)
    (key : String) (data : ProgressRecord) : Except String ProgressStore :=
  if ¬ fs.ensureDirsOk then Except.error "ensure_dirs: os.makedirs failed"
  else if fs.openWriteOk then
    Except.ok (fun k => if k = key then some data else store k)
  else Except.ok store

/-! ## Fetcher (`download_file`, core/downloader.py lines 176-240) -/

/-- Outcome of one network transfer attempt: either the transport
raises (leaving the ".part" file holding whatever was streamed before
the failure, `none` when it failed before the tmp file was opened), or
the body completes with content of a given SHA1. -/
inductive TransferResult
  | err (msg : String) (tmpAfter : Option String)
  | ok (sha1 : String)
deriving DecidableEq

/-- Filesystem state around one destination path: content hash at the
destination and at the temporary sibling "dest + .part" (none = file
absent). -/
structure DlState where
  dest : Option String
  tmp : Option String
deriving DecidableEq

/-- Case-insensitive hash comparison (`actual.lower() != expected_sha1.lower()`). -/
def sha1Matches (actual expected : String) : Bool :=
  pyLower actual == pyLower expected

/-- Error message raised on an integrity failure (line 226). -/
def mismatchMsg (expected actual : String) : String :=
  "SHA1 mismatch: expected " ++ expected ++ ", got " ++ actual

/-- One iteration of the retry loop of `download_file` (lines 196-238):
stream the body into the tmp file, verify the hash when requested
(removing the tmp file and raising on mismatch), and atomically move
the verified tmp file over the destination.  Returns the new state and
`none` on success or the attempt's error message. -/
def downloadAttempt (transfer : TransferResult) (expected_sha1 : Option String)
    (st : DlState) : DlState × Option String :=
  match transfer with
  | TransferResult.err m tmpAfter =>
    match tmpAfter with
    | none => (st, some m)
    | some p => ({ st with tmp := some p }, some m)
  | TransferResult.ok h =>
    match expected_sha1 with
    | some e =>
      if sha1Matches h e then ({ dest := some h, tmp := none }, none)
      else ({ st with tmp := none }, some (mismatchMsg e h))
    | none => ({ dest := some h, tmp := none }, none)

/-- Result of `download_file`: normal return or a raised error message,
together with the number of transfer attempts that were made. -/
inductive DlOutcome
  | success (attemptsMade : Nat)
  | raised (msg : String) (attemptsMade : Nat)
deriving DecidableEq

/-- The `for attempt in range(1, retries + 1)` loop: run attempts until
one succeeds or the bound is exhausted, tracking the last error and the
number of attempts made; exhaustion re-raises the last error (or the
generic failure message when no attempt ran, line 240). -/
def downloadLoop (attempts : Nat → TransferResult) (expected_sha1 : Option String) :
    Nat → Nat → DlState → Option String → DlState × DlOutcome
  | 0, made, st, lastErr =>
    (st, DlOutcome.raised (lastErr.getD "Failed to download") made)
  | fuel + 1, made, st, lastErr =>
    match downloadAttempt (attempts made) expected_sha1 st with
    | (st', none) => (st', DlOutcome.success (made + 1))
    | (st', some m) => downloadLoop attempts expected_sha1 fuel (made + 1) st' (some m)

/-- `download_file` (lines 176-240) at attempt granularity.  The
cancel flag is the value of `_cancel_flags.get(version_key)` as seen by
this call (checked by `_maybe_abort` on entry, per chunk and after each
failed attempt); the pause flag is assumed clear, making `_check_pause`
a no-op.  With the cancel flag set the distinguished cancellation
signal RuntimeError("cancelled") is raised before any attempt. -/
def download_file (cancelFlag : Bool) (attempts : Nat → TransferResult)
    (expected_sha1 : Option String) (retries : Nat) (st : DlState) :
    DlState × DlOutcome :=
  if cancelFlag then (st, DlOutcome.raised "cancelled" 0)
  else downloadLoop attempts expected_sha1 retries 0 st none

/-! ## Terminal transitions of the background runner
(`install_version.runner`, core/downloader.py lines 1132-1184, and the
terminal write of `_install_version`, lines 1079-1093) -/

/-- A Python exception as seen at the runner boundary: the runner's
except clause catches RuntimeError only, so the exception class matters. -/
inductive PyExc
  | runtimeError (msg : String)
  | otherExc (cls msg : String)
deriving DecidableEq

/-- Outcome of the `_install_version(...)` call inside the runner. -/
inductive PipelineOutcome
  | completed (bytes_done bytes_total : Int)
  | raised (e : PyExc)
deriving DecidableEq

/-- The record `_install_version` writes on normal completion
(lines 1080-1091). -/
def installedRecord (bytes_done bytes_total : Int) : ProgressRecord :=
  { status := "installed", stage := "finalize", stage_percent := 100,
    overall_percent := 100, message := "Installation complete",
    bytes_done := bytes_done, bytes_total := bytes_total }

/-- The record the runner writes on cancellation (lines 1145-1156). -/
def cancelledRecord : ProgressRecord :=
  { status := "cancelled", stage := "finalize", stage_percent := 0,
    overall_percent := 0, message := "Installation cancelled",
    bytes_done := 0, bytes_total := 0 }

/-- The record the runner writes on a non-cancellation RuntimeError
(lines 1159-1170). -/
def errorRecord (msg : String) : ProgressRecord :=
  { status := "error", stage := "finalize", stage_percent := 0,
    overall_percent := 0, message := msg, bytes_done := 0, bytes_total := 0 }

/-- Observable effects of one run of `runner`: the terminal progress
record written for the job (none when no terminal write happens),
whether the partially built install directory was removed, and the
exception escaping the runner uncaught, if any. -/
structure RunnerEffect where
  finalWrite : Option ProgressRecord
  removedVersionDir : Bool
  uncaught : Option PyExc
deriving DecidableEq

/-- `runner` (lines 1132-1184): RuntimeError("cancelled") selects the
cancelled record and deletes the version directory when it exists; any
other RuntimeError selects the error record with its message; a
non-RuntimeError exception is not caught (only the finally-block flag
cleanup runs); normal completion leaves the installed record written by
`_install_version`. -/
def runner (outcome : PipelineOutcome) (versionDirExists : Bool) : RunnerEffect :=
  match outcome with
  | PipelineOutcome.completed bd bt =>
    { finalWrite := some (installedRecord bd bt),
      removedVersionDir := false, uncaught := none }
  | PipelineOutcome.raised (PyExc.runtimeError m) =>
    if m = "cancelled" then
      { finalWrite := some cancelledRecord,
        removedVersionDir := versionDirExists, uncaught := none }
    else
      { finalWrite := some (errorRecord m),
        removedVersionDir := false, uncaught := none }
  | PipelineOutcome.raised (PyExc.otherExc cls m) =>
    { finalWrite := none, removedVersionDir := false,
      uncaught := some (PyExc.otherExc cls m) }

/-! ## Concrete data used by witnesses -/

/-- A mid-install progress record, as `_update_progress` writes them. -/
def demoRecord : ProgressRecord :=
  { status := "downloading", stage := "libraries", stage_percent := 40,
    overall_percent := 35, message := "Libraries 2/5",
    bytes_done := 3, bytes_total := 10 }

/-- A one-key progress store. -/
def demoStore : ProgressStore :=
  fun k => if k = "Release/1.20.1" then some demoRecord else none

/-- A pause-flag table with the flag set for every key. -/
def demoPausedFlags : String → Bool := fun _ => true

/-- Transfer attempts that always fail with the same transport error. -/
def alwaysFailAttempts : Nat → TransferResult :=
  fun _ => TransferResult.err "connection reset" none

/-- The two same-module library artifacts of the 3.2.1 / 3.2.2 example. -/
def demoArtifacts : List Artifact :=
  [{ url := "https://repo/lwjgl-glfw-3.2.1.jar",
     path := "org/lwjgl/glfw/3.2.1/lwjgl-glfw-3.2.1.jar" },
   { url := "https://repo/lwjgl-glfw-3.2.2.jar",
     path := "org/lwjgl/glfw/3.2.2/lwjgl-glfw-3.2.2.jar" }]

/-! ## Theorems -/

/-- C7: the resource-era classifier strips any dash suffix, parses
dotted (major, minor) integers, and classifies a parseable version as
modern exactly when (major, minor) is at or above the threshold (1, 6). -/
theorem C7_modern_assets_threshold (v : String) (major minor : Int)
    (hp : parseMajorMinor v = some (major, minor)) :
    is_modern_assets v = true ↔ (1 < major ∨ (major = 1 ∧ 6 ≤ minor)) := by
  have hred : is_modern_assets v
      = if major > 1 then true
        else if major = 1 ∧ minor ≥ 6 then true else false := by
    unfold is_modern_assets
    rw [hp]
  rw [hred]
  split_ifs with h1 h2
  · simp only [true_iff]
    exact Or.inl h1
  · simp only [true_iff]
    exact Or.inr h2
  · simp only [false_iff]
    omega

theorem C7_modern_assets_threshold_witness :
    is_modern_assets "1.6.4" = true ↔ (1 < (1 : Int) ∨ ((1 : Int) = 1 ∧ (6 : Int) ≤ 6)) :=
  C7_modern_assets_threshold "1.6.4" 1 6 (by decide)

/-- C10: a version identifier whose pre-dash text does not parse as
dotted integers is classified modern (the except branch returns True),
routing it to the manifest-driven resource workflow. -/
theorem C10_unparseable_is_modern (v : String)
    (hp : parseMajorMinor v = none) :
    is_modern_assets v = true := by
  unfold is_modern_assets
  rw [hp]

theorem C10_unparseable_is_modern_witness :
    is_modern_assets "15w44a" = true :=
  C10_unparseable_is_modern "15w44a" (by decide)

/-- C8: get_install_status returns none when no record exists for the
key, and otherwise returns the stored record with its status replaced
by "paused" exactly when the key's pause flag is set, regardless of the
status last written. -/
theorem C8_status_pause_overlay (store : ProgressStore) (pauseFlag : String → Bool)
    (version_id storage_category : String) :
    (store (version_key version_id storage_category) = none →
      get_install_status store pauseFlag version_id storage_category = none)
    ∧ (∀ prog, store (version_key version_id storage_category) = some prog →
        pauseFlag (version_key version_id storage_category) = true →
        get_install_status store pauseFlag version_id storage_category
          = some { prog with status := "paused" })
    ∧ (∀ prog, store (version_key version_id storage_category) = some prog →
        pauseFlag (version_key version_id storage_category) = false →
        get_install_status store pauseFlag version_id storage_category = some prog) := by
  refine ⟨?_, ?_, ?_⟩ <;> intros <;> simp [get_install_status, *]

theorem C8_status_pause_overlay_witness :
    get_install_status demoStore demoPausedFlags "1.20.1" "Release"
      = some { demoRecord with status := "paused" } :=
  (C8_status_pause_overlay demoStore demoPausedFlags "1.20.1" "Release").2.1
    demoRecord (by decide) rfl

/-- C9 (code bug evaluation): a failure of the open/json.dump write is
swallowed and write_progress returns normally, but a failure of
os.makedirs inside ensure_dirs — reached through progress_path before
the try block — propagates out of write_progress. -/
theorem C9_write_progress_escape :
    (∀ store key data, ∃ store',
        write_progress ⟨true, false⟩ store key data = Except.ok store')
    ∧ (∀ store key data, ∃ store',
        write_progress ⟨true, true⟩ store key data = Except.ok store')
    ∧ write_progress ⟨false, true⟩ (fun _ => none) "Release/1.20.1" cancelledRecord
        = Except.error "ensure_dirs: os.makedirs failed" :=
  ⟨fun store _ _ => ⟨store, rfl⟩,
   fun store key data => ⟨fun k => if k = key then some data else store k, rfl⟩,
   rfl⟩

/-- C1 counterexample: an exception that is not a RuntimeError (here the
ValueError re-raised by download_file after exhausting retries on a hash
mismatch) unwinds to the runner, which catches RuntimeError only: no
progress record with status "error" is written, contradicting the claim
that any non-cancellation error is recorded as "error". -/
theorem C1_counterexample :
    (runner (PipelineOutcome.raised
        (PyExc.otherExc "ValueError" "SHA1 mismatch for client.jar")) true).finalWrite
      = none
    ∧ (runner (PipelineOutcome.raised
        (PyExc.otherExc "ValueError" "SHA1 mismatch for client.jar")) true).uncaught
      ≠ none := by
  decide

/-- C1 (amended): normal completion writes "installed" with 100/100;
the distinguished cancellation signal RuntimeError("cancelled") writes
"cancelled" and deletes the partial install directory when it exists;
any other RuntimeError writes "error" carrying the message and deletes
nothing; an exception of any other class is not caught at the boundary:
no terminal record is written, nothing is deleted, and the exception
escapes. -/
theorem C1_terminal_transitions (bd bt : Int) (m cls m' : String)
    (dirExists : Bool) (hm : m ≠ "cancelled") :
    runner (PipelineOutcome.completed bd bt) dirExists
      = { finalWrite := some (installedRecord bd bt),
          removedVersionDir := false, uncaught := none }
    ∧ (installedRecord bd bt).status = "installed"
    ∧ (installedRecord bd bt).stage_percent = 100
    ∧ (installedRecord bd bt).overall_percent = 100
    ∧ runner (PipelineOutcome.raised (PyExc.runtimeError "cancelled")) dirExists
      = { finalWrite := some cancelledRecord,
          removedVersionDir := dirExists, uncaught := none }
    ∧ cancelledRecord.status = "cancelled"
    ∧ runner (PipelineOutcome.raised (PyExc.runtimeError m)) dirExists
      = { finalWrite := some (errorRecord m),
          removedVersionDir := false, uncaught := none }
    ∧ (errorRecord m).status = "error"
    ∧ (errorRecord m).message = m
    ∧ runner (PipelineOutcome.raised (PyExc.otherExc cls m')) dirExists
      = { finalWrite := none, removedVersionDir := false,
          uncaught := some (PyExc.otherExc cls m') } := by
  refine ⟨rfl, rfl, rfl, rfl, ?_, rfl, ?_, rfl, rfl, rfl⟩
  · simp [runner]
  · simp [runner, hm]

theorem C1_terminal_transitions_witness :
    runner (PipelineOutcome.raised (PyExc.runtimeError "failed to fetch version json")) true
      = { finalWrite := some (errorRecord "failed to fetch version json"),
          removedVersionDir := false, uncaught := none } :=
  (C1_terminal_transitions 10 10 "failed to fetch version json" "ValueError" "x" true
    (by decide)).2.2.2.2.2.2.1

/-- C3: with every attempt failing and no cancel/pause flag set,
download_file with retries = 3 makes exactly three transfer attempts,
never fewer and never more, and re-raises the last error encountered. -/
theorem C3_exactly_three_attempts (attempts : Nat → TransferResult)
    (msgs : Nat → String) (tmps : Nat → Option String)
    (expected_sha1 : Option String) (st : DlState)
    (hall : ∀ i, attempts i = TransferResult.err (msgs i) (tmps i)) :
    (download_file false attempts expected_sha1 3 st).snd
      = DlOutcome.raised (msgs 2) 3 := by
  have h0 := hall 0
  have h1 := hall 1
  have h2 := hall 2
  rcases e0 : tmps 0 with _ | p0 <;> rw [e0] at h0 <;>
    rcases e1 : tmps 1 with _ | p1 <;> rw [e1] at h1 <;>
      rcases e2 : tmps 2 with _ | p2 <;> rw [e2] at h2 <;>
        simp [download_file, downloadLoop, downloadAttempt, h0, h1, h2]

theorem C3_exactly_three_attempts_witness :
    (download_file false alwaysFailAttempts (some "abc") 3
        ⟨some "old", none⟩).snd
      = DlOutcome.raised "connection reset" 3 :=
  C3_exactly_three_attempts alwaysFailAttempts (fun _ => "connection reset")
    (fun _ => none) (some "abc") ⟨some "old", none⟩ (fun _ => rfl)

/-- Destination safety of the retry loop: whatever the attempt
outcomes, the destination path either keeps its previous content or
holds content whose hash matches the expected hash. -/
theorem downloadLoop_dest_safe (attempts : Nat → TransferResult) (e : String) :
    ∀ (fuel made : Nat) (st : DlState) (lastErr : Option String),
      (downloadLoop attempts (some e) fuel made st lastErr).fst.dest = st.dest
      ∨ ∃ g, (downloadLoop attempts (some e) fuel made st lastErr).fst.dest = some g
          ∧ sha1Matches g e = true := by
  intro fuel
  induction fuel with
  | zero => intro made st lastErr; exact Or.inl rfl
  | succ n ih =>
    intro made st lastErr
    rcases ha : attempts made with ⟨m, tmpAfter⟩ | h
    · rcases tmpAfter with _ | p <;>
        · simp only [downloadLoop, downloadAttempt, ha]
          exact ih (made + 1) _ (some m)
    · by_cases hm : sha1Matches h e = true
      · simp only [downloadLoop, downloadAttempt, ha, hm, if_true]
        exact Or.inr ⟨h, rfl, hm⟩
      · rw [Bool.not_eq_true] at hm
        simp only [downloadLoop, downloadAttempt, ha, hm, Bool.false_eq_true, if_false]
        exact ih (made + 1) _ (some (mismatchMsg e h))

/-- C2: on a completed transfer whose hash does not match the expected
hash (case-insensitively), the temporary ".part" file is removed, the
attempt raises an integrity error, the failed attempt consumes one unit
of the retry bound, and — over the whole call — mismatched content is
never placed at the destination: the destination is unchanged unless it
receives content whose hash matches. -/
theorem C2_hash_mismatch_integrity (attempts : Nat → TransferResult)
    (e h : String) (fuel made : Nat) (st : DlState) (lastErr : Option String)
    (hm : sha1Matches h e = false)
    (ha : attempts made = TransferResult.ok h) :
    downloadAttempt (TransferResult.ok h) (some e) st
      = ({ st with tmp := none }, some (mismatchMsg e h))
    ∧ downloadLoop attempts (some e) (fuel + 1) made st lastErr
      = downloadLoop attempts (some e) fuel (made + 1) { st with tmp := none }
          (some (mismatchMsg e h))
    ∧ (∀ retries st₀,
        (download_file false attempts (some e) retries st₀).fst.dest = st₀.dest
        ∨ ∃ g, (download_file false attempts (some e) retries st₀).fst.dest = some g
            ∧ sha1Matches g e = true) := by
  refine ⟨?_, ?_, ?_⟩
  · simp [downloadAttempt, hm]
  · simp only [downloadLoop, downloadAttempt, ha, hm, Bool.false_eq_true, if_false]
  · intro retries st₀
    simpa [download_file] using
      downloadLoop_dest_safe attempts e retries 0 st₀ none

theorem C2_hash_mismatch_integrity_witness :
    downloadAttempt (TransferResult.ok "abd") (some "ABC") ⟨some "old", none⟩
      = (⟨some "old", none⟩, some (mismatchMsg "ABC" "abd"))
    ∧ ((download_file false (fun _ => TransferResult.ok "abd") (some "ABC") 3
          ⟨some "old", none⟩).fst.dest = some "old"
        ∨ ∃ g, (download_file false (fun _ => TransferResult.ok "abd") (some "ABC") 3
            ⟨some "old", none⟩).fst.dest = some g ∧ sha1Matches g "ABC" = true) :=
  ⟨(C2_hash_mismatch_integrity (fun _ => TransferResult.ok "abd") "ABC" "abd" 2 0
      ⟨some "old", none⟩ none (by decide) rfl).1,
   (C2_hash_mismatch_integrity (fun _ => TransferResult.ok "abd") "ABC" "abd" 2 0
      ⟨some "old", none⟩ none (by decide) rfl).2.2 3 ⟨some "old", none⟩⟩

/-- C4: the configured stage weights sum to exactly 100, and for every
stage of the pipeline order and every stage percent, the computed
overall percent is the sum of the full weights of the stages before it
plus the stage's weight scaled by stage_percent / 100, clamped to
[0, 100]. -/
theorem C4_overall_formula :
    ((STAGE_WEIGHTS.map Prod.snd).sum = 100)
    ∧ ∀ stage, stage ∈ stageNames → ∀ p : ℚ,
        compute_overall stage p
          = min 100 (max 0 ((prefixWeight stage : ℚ)
              + (weightOf stage : ℚ) * (p / 100))) := by
  refine ⟨by decide, ?_⟩
  intro stage hs p
  have hs' : stage = "version_json" ∨ stage = "client" ∨ stage = "libraries"
      ∨ stage = "natives" ∨ stage = "assets" ∨ stage = "finalize" := by
    simpa [stageNames, STAGE_WEIGHTS] using hs
  rcases hs' with rfl | rfl | rfl | rfl | rfl | rfl
  · rw [show prefixWeight "version_json" = 0 from rfl,
      show weightOf "version_json" = 5 from rfl]
    simp only [compute_overall, computeOverallGo, STAGE_WEIGHTS,
      String.reduceEq, reduceIte]
    norm_num
  · rw [show prefixWeight "client" = 5 from rfl,
      show weightOf "client" = 20 from rfl]
    simp only [compute_overall, computeOverallGo, STAGE_WEIGHTS,
      String.reduceEq, reduceIte]
    norm_num
  · rw [show prefixWeight "libraries" = 25 from rfl,
      show weightOf "libraries" = 25 from rfl]
    simp only [compute_overall, computeOverallGo, STAGE_WEIGHTS,
      String.reduceEq, reduceIte]
    norm_num
  · rw [show prefixWeight "natives" = 50 from rfl,
      show weightOf "natives" = 15 from rfl]
    simp only [compute_overall, computeOverallGo, STAGE_WEIGHTS,
      String.reduceEq, reduceIte]
    norm_num
  · rw [show prefixWeight "assets" = 65 from rfl,
      show weightOf "assets" = 25 from rfl]
    simp only [compute_overall, computeOverallGo, STAGE_WEIGHTS,
      String.reduceEq, reduceIte]
    norm_num
  · rw [show prefixWeight "finalize" = 90 from rfl,
      show weightOf "finalize" = 10 from rfl]
    simp only [compute_overall, computeOverallGo, STAGE_WEIGHTS,
      String.reduceEq, reduceIte]
    norm_num

theorem C4_overall_formula_witness :
    compute_overall "client" 50
      = min 100 (max 0 ((prefixWeight "client" : ℚ)
          + (weightOf "client" : ℚ) * (50 / 100))) :=
  C4_overall_formula.2 "client" (by simp [stageNames, STAGE_WEIGHTS]) 50

/-- Within one stage, the accumulated overall total is monotone in the
stage percent (the stage weights are non-negative). -/
theorem computeOverallGo_mono (l : List (String × Nat)) (stage : String)
    (p1 p2 : ℚ) (h : p1 ≤ p2) :
    ∀ t : ℚ, computeOverallGo l stage p1 t ≤ computeOverallGo l stage p2 t := by
  induction l with
  | nil => intro t; exact le_refl t
  | cons kw rest ih =>
    intro t
    obtain ⟨k, w⟩ := kw
    simp only [computeOverallGo]
    split
    · have hw : (0 : ℚ) ≤ (w : ℚ) := by positivity
      have hdiv : p1 / 100 ≤ p2 / 100 := by linarith
      nlinarith
    · exact ih (t + w)

/-- C5: the overall percent is monotonically non-decreasing: within any
stage it is monotone in the stage percent, and for any stage strictly
before another in the pipeline order, finishing the earlier stage
(100%) never exceeds starting the later one (0%). -/
theorem C5_overall_monotone :
    (∀ stage : String, ∀ p1 p2 : ℚ, 0 ≤ p1 → p1 ≤ p2 → p2 ≤ 100 →
        compute_overall stage p1 ≤ compute_overall stage p2)
    ∧ (∀ s s' : String, s ∈ stageNames → s' ∈ stageNames →
        stageIndex s < stageIndex s' →
        compute_overall s 100 ≤ compute_overall s' 0) := by
  constructor
  · intro stage p1 p2 _ h12 _
    exact min_le_min le_rfl
      (max_le_max le_rfl (computeOverallGo_mono STAGE_WEIGHTS stage p1 p2 h12 0))
  · intro s s' hs hs' hlt
    have hsd : s = "version_json" ∨ s = "client" ∨ s = "libraries"
        ∨ s = "natives" ∨ s = "assets" ∨ s = "finalize" := by
      simpa [stageNames, STAGE_WEIGHTS] using hs
    have hsd' : s' = "version_json" ∨ s' = "client" ∨ s' = "libraries"
        ∨ s' = "natives" ∨ s' = "assets" ∨ s' = "finalize" := by
      simpa [stageNames, STAGE_WEIGHTS] using hs'
    rcases hsd with rfl | rfl | rfl | rfl | rfl | rfl <;>
      rcases hsd' with rfl | rfl | rfl | rfl | rfl | rfl <;>
        first
          | exact absurd hlt (by decide)
          | (simp only [compute_overall, computeOverallGo, STAGE_WEIGHTS,
               String.reduceEq, reduceIte]
             norm_num)

theorem C5_overall_monotone_witness :
    compute_overall "client" 10 ≤ compute_overall "client" 20
    ∧ compute_overall "client" 100 ≤ compute_overall "libraries" 0 :=
  ⟨C5_overall_monotone.1 "client" 10 20 (by norm_num) (by norm_num) (by norm_num),
   C5_overall_monotone.2 "client" "libraries"
     (by simp [stageNames, STAGE_WEIGHTS]) (by simp [stageNames, STAGE_WEIGHTS])
     (by decide)⟩

/-- Lookup after an association-list update. -/
theorem lookup_setAssoc (k : String) (v : Nat) (m : String) :
    ∀ hv : List (String × Nat),
      lookupAssoc (setAssoc hv k v) m = if m = k then some v else lookupAssoc hv m := by
  intro hv
  induction hv with
  | nil =>
    by_cases hmk : m = k <;> simp [setAssoc, lookupAssoc, hmk]
  | cons kv rest ih =>
    obtain ⟨k', v'⟩ := kv
    by_cases hk : k' = k
    · subst hk
      by_cases hmk : m = k' <;> simp [setAssoc, lookupAssoc, hmk]
    · by_cases hmk : m = k'
      · subst hmk
        simp [setAssoc, hk, lookupAssoc]
      · simp [setAssoc, hk, lookupAssoc, hmk, ih]

/-- A present entry only grows (or appears) under one accumulation step. -/
theorem lookup_insertHighest_mono (hv : List (String × Nat)) (n m : String)
    (w : Nat) (hw : lookupAssoc hv m = some w) :
    ∃ x, lookupAssoc (insertHighest hv n) m = some x ∧ w ≤ x := by
  rcases hp : parse_lwjgl_version n with _ | v
  · exact ⟨w, by simp only [insertHighest, hp]; exact hw, le_refl w⟩
  · rcases hl : lookupAssoc hv (moduleOf n) with _ | cur
    · by_cases hm : m = moduleOf n
      · rw [hm, hl] at hw
        cases hw
      · refine ⟨w, ?_, le_refl w⟩
        simp only [insertHighest, hp, hl, lookup_setAssoc, hm, if_false]
        exact hw
    · by_cases hvc : v > cur
      · by_cases hm : m = moduleOf n
        · rw [hm, hl] at hw
          cases hw
          refine ⟨v, ?_, le_of_lt hvc⟩
          simp only [insertHighest, hp, hl, hvc, if_true, lookup_setAssoc, hm]
        · refine ⟨w, ?_, le_refl w⟩
          simp only [insertHighest, hp, hl, hvc, if_true, lookup_setAssoc, hm, if_false]
          exact hw
      · refine ⟨w, ?_, le_refl w⟩
        simp only [insertHighest, hp, hl, hvc, if_false]
        exact hw

/-- A parsed name pushes at least its own version into its module's
entry under one accumulation step. -/
theorem lookup_insertHighest_self (hv : List (String × Nat)) (n m : String)
    (v : Nat) (hp : parse_lwjgl_version n = some v) (hm : moduleOf n = m) :
    ∃ x, lookupAssoc (insertHighest hv n) m = some x ∧ v ≤ x := by
  subst hm
  rcases hl : lookupAssoc hv (moduleOf n) with _ | cur
  · refine ⟨v, ?_, le_refl v⟩
    simp [insertHighest, hp, hl, lookup_setAssoc]
  · by_cases hvc : v > cur
    · refine ⟨v, ?_, le_refl v⟩
      simp [insertHighest, hp, hl, hvc, lookup_setAssoc]
    · refine ⟨cur, ?_, by omega⟩
      simp only [insertHighest, hp, hl, hvc, if_false]

/-- Every value present after one accumulation step comes either from
the inserted name or from the previous table. -/
theorem lookup_insertHighest_cases (hv : List (String × Nat)) (n m : String)
    (h : Nat) (hl : lookupAssoc (insertHighest hv n) m = some h) :
    (moduleOf n = m ∧ parse_lwjgl_version n = some h) ∨ lookupAssoc hv m = some h := by
  rcases hp : parse_lwjgl_version n with _ | v
  · simp only [insertHighest, hp] at hl
    exact Or.inr hl
  · rcases hx : lookupAssoc hv (moduleOf n) with _ | cur
    · simp only [insertHighest, hp, hx, lookup_setAssoc] at hl
      by_cases hm : m = moduleOf n
      · rw [if_pos hm] at hl
        obtain rfl : v = h := Option.some.inj hl
        exact Or.inl ⟨hm.symm, rfl⟩
      · rw [if_neg hm] at hl
        exact Or.inr hl
    · by_cases hvc : v > cur
      · simp only [insertHighest, hp, hx, hvc, if_true, lookup_setAssoc] at hl
        by_cases hm : m = moduleOf n
        · rw [if_pos hm] at hl
          obtain rfl : v = h := Option.some.inj hl
          exact Or.inl ⟨hm.symm, rfl⟩
        · rw [if_neg hm] at hl
          exact Or.inr hl
      · simp only [insertHighest, hp, hx, hvc, if_false] at hl
        exact Or.inr hl

/-- Soundness of the accumulated highest-version table: every recorded
version was parsed from some processed name of the matching module. -/
theorem lookup_buildHighest_sound :
    ∀ (names : List String) (hv : List (String × Nat)) (m : String) (h : Nat),
      lookupAssoc (names.foldl insertHighest hv) m = some h →
      (∃ n ∈ names, moduleOf n = m ∧ parse_lwjgl_version n = some h)
      ∨ lookupAssoc hv m = some h := by
  intro names
  induction names with
  | nil => intro hv m h hl; exact Or.inr hl
  | cons n ns ih =>
    intro hv m h hl
    rcases ih (insertHighest hv n) m h hl with ⟨n', hn', hmod, hp⟩ | hbase
    · exact Or.inl ⟨n', List.mem_cons_of_mem n hn', hmod, hp⟩
    · rcases lookup_insertHighest_cases hv n m h hbase with ⟨hmod, hp⟩ | hold
      · exact Or.inl ⟨n, List.mem_cons_self n ns, hmod, hp⟩
      · exact Or.inr hold

/-- Completeness of the accumulated highest-version table: every parsed
version of a processed name is dominated by the recorded entry of its
module. -/
theorem lookup_buildHighest_complete :
    ∀ (names : List String) (hv : List (String × Nat)) (m : String) (w : Nat),
      ((∃ n ∈ names, moduleOf n = m ∧ parse_lwjgl_version n = some w)
        ∨ lookupAssoc hv m = some w) →
      ∃ h, lookupAssoc (names.foldl insertHighest hv) m = some h ∧ w ≤ h := by
  intro names
  induction names with
  | nil =>
    intro hv m w hd
    rcases hd with ⟨n, hn, _, _⟩ | hl
    · cases hn
    · exact ⟨w, hl, le_refl w⟩
  | cons n ns ih =>
    intro hv m w hd
    rcases hd with ⟨n', hn', hmod, hp⟩ | hl
    · rcases List.mem_cons.mp hn' with rfl | hmem
      · obtain ⟨x, hx, hwx⟩ := lookup_insertHighest_self hv n' m w hp hmod
        obtain ⟨y, hy, hxy⟩ := ih (insertHighest hv n') m x (Or.inr hx)
        exact ⟨y, hy, le_trans hwx hxy⟩
      · exact ih (insertHighest hv n) m w (Or.inl ⟨n', hmem, hmod, hp⟩)
    · obtain ⟨x, hx, hwx⟩ := lookup_insertHighest_mono hv n m w hl
      obtain ⟨y, hy, hxy⟩ := ih (insertHighest hv n) m x (Or.inr hx)
      exact ⟨y, hy, le_trans hwx hxy⟩

/-- C6 counterexample: for the file-name set {foo-1.jar, foo-2.jar} the
claim's detector (group by pre-dash module, extract the embedded
numeric version) marks foo-1.jar skippable, but the source restricts
detection to lwjgl-prefixed names: it never marks foo-1.jar skippable
and records no highest version for the module at all. -/
theorem C6_counterexample :
    claimSkippable ["foo-1.jar", "foo-2.jar"] "foo-1.jar" = true
    ∧ should_skip_library_for_version "1.20.1" "foo-1.jar"
        (buildHighest ["foo-1.jar", "foo-2.jar"]) = false
    ∧ buildHighest ["foo-1.jar", "foo-2.jar"] = [] := by
  decide

/-- C6 (amended): superseded-dependency detection applies only to file
names starting (case-insensitively) with "lwjgl": such an entry is
skippable exactly when its embedded numeric version is lower than the
version of some same-module lwjgl entry of the set (equivalently, lower
than the highest version seen for its module); a name that does not
parse is never skippable.  The concrete 3.2.1 / 3.2.2 lwjgl pair
behaves as the claim states: the 3.2.1 entry is excluded from the final
classpath and the 3.2.2 entry appears exactly once. -/
theorem C6_superseded_detection (version_id lib_basename : String)
    (names : List String) (v : Nat)
    (hb : parse_lwjgl_version lib_basename = some v) :
    (should_skip_library_for_version version_id lib_basename (buildHighest names) = true
      ↔ ∃ n ∈ names, moduleOf n = moduleOf lib_basename
          ∧ ∃ w, parse_lwjgl_version n = some w ∧ v < w)
    ∧ (∀ b, parse_lwjgl_version b = none →
        should_skip_library_for_version version_id b (buildHighest names) = false)
    ∧ classpathEntries version_id demoArtifacts
        = ["client.jar", "lwjgl-glfw-3.2.2.jar"] := by
  refine ⟨?_, ?_, rfl⟩
  · constructor
    · intro hskip
      rcases hl : lookupAssoc (buildHighest names) (moduleOf lib_basename)
          with _ | highest
      · simp only [should_skip_library_for_version, hb, hl] at hskip
        cases hskip
      · have hvh : v < highest := by
          simp only [should_skip_library_for_version, hb, hl,
            decide_eq_true_eq] at hskip
          exact hskip
        rcases lookup_buildHighest_sound names [] (moduleOf lib_basename) highest hl with
          ⟨n, hn, hmod, hp⟩ | habs
        · exact ⟨n, hn, hmod, highest, hp, hvh⟩
        · cases habs
    · rintro ⟨n, hn, hmod, w, hp, hvw⟩
      obtain ⟨x, hx, hwx⟩ := lookup_buildHighest_complete names [] (moduleOf lib_basename) w
        (Or.inl ⟨n, hn, hmod, hp⟩)
      have hx' : lookupAssoc (buildHighest names) (moduleOf lib_basename) = some x := hx
      simp only [should_skip_library_for_version, hb, hx', decide_eq_true_eq]
      exact lt_of_lt_of_le hvw hwx
  · intro b hbnone
    simp only [should_skip_library_for_version, hbnone]

theorem C6_superseded_detection_witness :
    should_skip_library_for_version "1.20.1" "lwjgl-glfw-3.2.1.jar"
      (buildHighest ["lwjgl-glfw-3.2.1.jar", "lwjgl-glfw-3.2.2.jar"]) = true
    ∧ classpathEntries "1.20.1" demoArtifacts
      = ["client.jar", "lwjgl-glfw-3.2.2.jar"] :=
  ⟨(C6_superseded_detection "1.20.1" "lwjgl-glfw-3.2.1.jar"
      ["lwjgl-glfw-3.2.1.jar", "lwjgl-glfw-3.2.2.jar"] 321 (by decide)).1.mpr
      ⟨"lwjgl-glfw-3.2.2.jar", by decide, by decide, 322, by decide, by decide⟩,
   (C6_superseded_detection "1.20.1" "lwjgl-glfw-3.2.1.jar"
      ["lwjgl-glfw-3.2.1.jar", "lwjgl-glfw-3.2.2.jar"] 321 (by decide)).2.2⟩

end Histolauncher
